import Mathlib

/-!
Verification of the meeting-minutes pipeline (Azure Functions `function_app.py`
and the container-job `extractor.py`) against its natural-language specification.

The development shallowly embeds the pipeline's naming protocol, metadata
protocol and the decision logic of the HTTP/event handlers.  Blob stores are
modelled as partial maps from blob names to blobs, the external services
(chat completion, translation, speech) as oracles passed in as functions, and
Python exceptions as error results.  Python strings are Lean `String`s;
the Python `str`/`os.path` primitives used by the code are re-implemented
below on `List Char` exactly following their CPython semantics.
-/

namespace MM

/-! ## Python string primitives -/

/-- Python `s.startswith(p)`: the first `|p|` characters of `l` are `p`. -/
def startsWithL (l p : List Char) : Bool := l.take p.length == p

/-- Python `s.endswith(p)`: the last `|p|` characters of `l` are `p`. -/
def endsWithL (l p : List Char) : Bool := l.drop (l.length - p.length) == p

def strStartsWith (s p : String) : Bool := startsWithL s.data p.data

def strEndsWith (s p : String) : Bool := endsWithL s.data p.data

/-- Python `s[:-n]` (for `0 < n ≤ len s`): drop the last `n` characters. -/
def strDropRight (s : String) (n : Nat) : String := String.mk (s.data.take (s.data.length - n))

/-- Python `s.split(sep)` for a one-character separator. -/
def pySplit (c : Char) : List Char → List (List Char)
  | [] => [[]]
  | x :: xs =>
    match pySplit c xs with
    | [] => [[]]
    | h :: t => if x = c then [] :: h :: t else (x :: h) :: t

/-- Python `s.split(sep, 1)` restricted to the case where the separator occurs:
returns the parts before and after the first occurrence of `pat`, or `none`
when `pat` does not occur (in the source this case raises `IndexError` when
the code immediately takes element `[1]`). -/
def splitOnceSub (pat : List Char) : List Char → Option (List Char × List Char)
  | [] => none
  | x :: xs =>
    if startsWithL (x :: xs) pat ∧ pat ≠ [] then some ([], (x :: xs).drop pat.length)
    else
      match splitOnceSub pat xs with
      | some (a, b) => some (x :: a, b)
      | none => none

/-- The characters of `l` strictly after the last `'/'` (all of `l` when there
is no `'/'`); this is Python `os.path.basename`, i.e. `p[p.rfind('/')+1:]`. -/
def basenameL (l : List Char) : List Char := (l.reverse.takeWhile (· != '/')).reverse

def pyBasename (s : String) : String := String.mk (basenameL s.data)

/-- Index of the last occurrence of `c` in `l`. -/
def rlastIdx (c : Char) (l : List Char) : Option Nat :=
  match l.reverse.findIdx? (· == c) with
  | none => none
  | some i => some (l.length - 1 - i)

/-- CPython `os.path.splitext` (`genericpath._splitext` with `sep = '/'`):
split at the last `'.'` provided it comes after the last `'/'` and the
basename does not consist solely of dots up to it. `sepP1` is
`p.rfind('/') + 1` computed in `Nat` (`0` when there is no `'/'`). -/
def splitextL (l : List Char) : List Char × List Char :=
  let sepP1 := l.length - (l.reverse.takeWhile (· != '/')).length
  match rlastIdx '.' l with
  | none => (l, [])
  | some d =>
    if decide (sepP1 ≤ d) && ((l.drop sepP1).take (d - sepP1)).any (· != '.') then
      (l.take d, l.drop d)
    else (l, [])

def pySplitext (s : String) : String × String :=
  ((String.mk (splitextL s.data).1), (String.mk (splitextL s.data).2))

/-- Python truthiness for an optional string: `None` and `""` are falsy. -/
def truthyStr : Option String → Option String
  | none => none
  | some s => if s = "" then none else some s

/-- `urllib.parse.urlparse(url).path` for the URL shapes the pipeline sees:
when `"://"` occurs, the authority extends to the next `'/'` and the path is
everything from there up to `'?'`/`'#'`; otherwise the whole string up to
`'?'`/`'#'` is the path. -/
def urlPath (u : String) : String :=
  match splitOnceSub "://".data u.data with
  | some (_, rest) =>
    String.mk ((rest.dropWhile (· != '/')).takeWhile (fun c => c != '?' && c != '#'))
  | none => String.mk (u.data.takeWhile (fun c => c != '?' && c != '#'))

/-! ## Basic lemmas about the string primitives -/

theorem pySplit_ne_nil (c : Char) (l : List Char) : pySplit c l ≠ [] := by
  cases l with
  | nil => simp [pySplit]
  | cons x xs =>
    simp only [pySplit]
    cases pySplit c xs with
    | nil => simp
    | cons h t => by_cases hx : x = c <;> simp [hx]

theorem pySplit_append (c : Char) (a b : List Char) (ha : c ∉ a) :
    pySplit c (a ++ c :: b) = a :: pySplit c b := by
  induction a with
  | nil =>
    simp only [List.nil_append, pySplit]
    cases hp : pySplit c b with
    | nil => exact absurd hp (pySplit_ne_nil c b)
    | cons h t => simp
  | cons x xs ih =>
    have hx : x ≠ c := fun h => ha (h ▸ List.mem_cons_self x xs)
    have ha' : c ∉ xs := fun h => ha (List.mem_cons_of_mem _ h)
    simp only [List.cons_append, pySplit, List.append_eq]
    rw [ih ha']
    simp [hx]

theorem startsWithL_iff (l p : List Char) :
    startsWithL l p = true ↔ ∃ t, l = p ++ t := by
  constructor
  · intro h
    refine ⟨l.drop p.length, ?_⟩
    have : l.take p.length = p := by simpa [startsWithL] using h
    conv_lhs => rw [← List.take_append_drop p.length l, this]
  · rintro ⟨t, rfl⟩
    simp [startsWithL, List.take_left]

theorem startsWithL_append (p t : List Char) : startsWithL (p ++ t) p = true := by
  simp [startsWithL, List.take_left]

theorem basenameL_of_no_sep (l : List Char) (h : '/' ∉ l) : basenameL l = l := by
  have htw : l.reverse.takeWhile (· != '/') = l.reverse := by
    apply List.takeWhile_eq_self_iff.mpr
    intro x hx
    have hxm : x ∈ l := List.mem_reverse.mp hx
    simp only [bne_iff_ne, ne_eq]
    exact fun hxe => h (hxe ▸ hxm)
  unfold basenameL
  rw [htw, List.reverse_reverse]

theorem takeWhile_append_stop {p : Char → Bool} (xs ys : List Char) (y : Char)
    (h : ∀ x ∈ xs, p x = true) (hy : p y = false) :
    List.takeWhile p (xs ++ y :: ys) = xs := by
  induction xs with
  | nil => simp [List.takeWhile, hy]
  | cons x xt ih =>
    have hx : p x = true := h x (List.mem_cons_self x xt)
    simp only [List.cons_append, List.takeWhile, hx]
    simp [ih fun z hz => h z (List.mem_cons_of_mem _ hz)]

theorem basenameL_append (a b : List Char) (hb : '/' ∉ b) :
    basenameL (a ++ '/' :: b) = b := by
  have hrev : (a ++ '/' :: b).reverse = b.reverse ++ '/' :: a.reverse := by
    simp
  have htw : (b.reverse ++ '/' :: a.reverse).takeWhile (· != '/') = b.reverse := by
    apply takeWhile_append_stop
    · intro x hx
      have hxm : x ∈ b := List.mem_reverse.mp hx
      simp only [bne_iff_ne, ne_eq]
      exact fun hxe => hb (hxe ▸ hxm)
    · simp
  unfold basenameL
  rw [hrev, htw, List.reverse_reverse]

theorem splitextL_root_ne_nil (l : List Char) (h : l ≠ []) : (splitextL l).1 ≠ [] := by
  unfold splitextL
  cases hd : rlastIdx '.' l with
  | none => simpa using h
  | some d =>
    simp only
    split
    · next hcond =>
      simp only [Bool.and_eq_true, decide_eq_true_eq] at hcond
      obtain ⟨hle, hany⟩ := hcond
      intro htake
      rcases List.take_eq_nil_iff.mp htake with h1 | h1
      · subst h1
        simp at hany
      · exact h h1
    · simpa using h

theorem splitextL_append (l : List Char) : (splitextL l).1 ++ (splitextL l).2 = l := by
  unfold splitextL
  cases hd : rlastIdx '.' l with
  | none => simp
  | some d =>
    simp only
    split
    · simp [List.take_append_drop]
    · simp

/-! ## Base64 (Python `base64.b64encode` / `b64decode` on correctly padded input)

Bytes are modelled as `Nat` values below 256.  `b64Decode` follows the strict
RFC 4648 decoding of a correctly padded string; `base64.b64decode` with its
default `validate=False` additionally discards characters outside the
alphabet, but the pipeline only ever decodes strings produced by
`b64encode`, on which the two agree. -/

def b64Alphabet : List Char :=
  "ABCDEFGHIJKLMNOPQRSTUVWXYZabcdefghijklmnopqrstuvwxyz0123456789+/".data

def b64Char (v : Nat) : Char := b64Alphabet.getD v 'A'

def b64Val (c : Char) : Option Nat := b64Alphabet.findIdx? (· == c)

def b64Encode : List Nat → List Char
  | [] => []
  | [a] => [b64Char (a / 4), b64Char (a % 4 * 16), '=', '=']
  | [a, b] => [b64Char (a / 4), b64Char (a % 4 * 16 + b / 16), b64Char (b % 16 * 4), '=']
  | a :: b :: c :: rest =>
    b64Char (a / 4) :: b64Char (a % 4 * 16 + b / 16) ::
      b64Char (b % 16 * 4 + c / 64) :: b64Char (c % 64) :: b64Encode rest

def b64Decode : List Char → Option (List Nat)
  | [] => some []
  | c1 :: c2 :: c3 :: c4 :: rest =>
    match b64Val c1, b64Val c2 with
    | some v1, some v2 =>
      if c3 = '=' then
        if c4 = '=' ∧ rest = [] then some [v1 * 4 + v2 / 16] else none
      else
        match b64Val c3 with
        | some v3 =>
          if c4 = '=' then
            if rest = [] then some [v1 * 4 + v2 / 16, v2 % 16 * 16 + v3 / 4] else none
          else
            match b64Val c4 with
            | some v4 =>
              match b64Decode rest with
              | some bs =>
                some ((v1 * 4 + v2 / 16) :: (v2 % 16 * 16 + v3 / 4) :: (v3 % 4 * 64 + v4) :: bs)
              | none => none
            | none => none
        | none => none
    | _, _ => none
  | _ => none

theorem b64Val_b64Char : ∀ v : Nat, v < 64 → b64Val (b64Char v) = some v := by decide

theorem b64Char_ne_eq : ∀ v : Nat, v < 64 → b64Char v ≠ '=' := by decide

theorem b64_roundtrip : ∀ bs : List Nat, (∀ b ∈ bs, b < 256) →
    b64Decode (b64Encode bs) = some bs
  | [] => by intro _; simp [b64Encode, b64Decode]
  | [a] => by
    intro h
    have ha : a < 256 := h a (by simp)
    have h1 : a / 4 < 64 := by omega
    have h2 : a % 4 * 16 < 64 := by omega
    have e1 : a / 4 * 4 + a % 4 * 16 / 16 = a := by omega
    simp [b64Encode, b64Decode, b64Val_b64Char _ h1, b64Val_b64Char _ h2, e1]
    omega
  | [a, b] => by
    intro h
    have ha : a < 256 := h a (by simp)
    have hb : b < 256 := h b (by simp)
    have h1 : a / 4 < 64 := by omega
    have h2 : a % 4 * 16 + b / 16 < 64 := by omega
    have h3 : b % 16 * 4 < 64 := by omega
    have e1 : a / 4 * 4 + (a % 4 * 16 + b / 16) / 16 = a := by omega
    have e2 : (a % 4 * 16 + b / 16) % 16 * 16 + b % 16 * 4 / 4 = b := by omega
    simp [b64Encode, b64Decode, b64Val_b64Char _ h1, b64Val_b64Char _ h2, b64Val_b64Char _ h3,
      b64Char_ne_eq _ h3, e1, e2]
    omega
  | a :: b :: c :: rest => by
    intro h
    have ha : a < 256 := h a (by simp)
    have hb : b < 256 := h b (by simp)
    have hc : c < 256 := h c (by simp)
    have hrest : ∀ x ∈ rest, x < 256 := fun x hx => h x (by simp [hx])
    have ih := b64_roundtrip rest hrest
    have h1 : a / 4 < 64 := by omega
    have h2 : a % 4 * 16 + b / 16 < 64 := by omega
    have h3 : b % 16 * 4 + c / 64 < 64 := by omega
    have h4 : c % 64 < 64 := by omega
    have e1 : a / 4 * 4 + (a % 4 * 16 + b / 16) / 16 = a := by omega
    have e2 : (a % 4 * 16 + b / 16) % 16 * 16 + (b % 16 * 4 + c / 64) / 4 = b := by omega
    have e3 : (b % 16 * 4 + c / 64) % 4 * 64 + c % 64 = c := by omega
    simp [b64Encode, b64Decode, b64Val_b64Char _ h1, b64Val_b64Char _ h2, b64Val_b64Char _ h3,
      b64Val_b64Char _ h4, b64Char_ne_eq _ h3, b64Char_ne_eq _ h4, ih, e1, e2, e3]

/-! ## UTF-8 (Python `str.encode('utf-8')` / `bytes.decode('utf-8')`) -/

/-- UTF-8 encoding of one Unicode scalar value. -/
def utf8EncodeChar (c : Nat) : List Nat :=
  if c < 0x80 then [c]
  else if c < 0x800 then [0xC0 + c / 64, 0x80 + c % 64]
  else if c < 0x10000 then [0xE0 + c / 4096, 0x80 + c / 64 % 64, 0x80 + c % 64]
  else [0xF0 + c / 0x40000, 0x80 + c / 4096 % 64, 0x80 + c / 64 % 64, 0x80 + c % 64]

/-- UTF-8 encoding of a string (list of characters). -/
def utf8Encode (l : List Char) : List Nat := (l.map (fun c => utf8EncodeChar c.toNat)).flatten

/-- Strict UTF-8 decoding of one scalar value: returns the decoded scalar and
the remaining bytes, rejecting truncated, overlong, surrogate, and
out-of-range sequences (as Python's strict `decode('utf-8')` does). -/
def utf8DecodeOne : List Nat → Option (Nat × List Nat)
  | [] => none
  | b :: rest =>
    if b < 0x80 then some (b, rest)
    else if b < 0xC0 then none
    else if b < 0xE0 then
      match rest with
      | b2 :: rest2 =>
        if (0x80 ≤ b2 ∧ b2 < 0xC0) ∧ 0x80 ≤ (b - 0xC0) * 64 + (b2 - 0x80) then
          some ((b - 0xC0) * 64 + (b2 - 0x80), rest2)
        else none
      | [] => none
    else if b < 0xF0 then
      match rest with
      | b2 :: b3 :: rest3 =>
        if (0x80 ≤ b2 ∧ b2 < 0xC0) ∧ (0x80 ≤ b3 ∧ b3 < 0xC0) ∧
            0x800 ≤ (b - 0xE0) * 4096 + (b2 - 0x80) * 64 + (b3 - 0x80) ∧
            ¬(0xD800 ≤ (b - 0xE0) * 4096 + (b2 - 0x80) * 64 + (b3 - 0x80) ∧
              (b - 0xE0) * 4096 + (b2 - 0x80) * 64 + (b3 - 0x80) < 0xE000) then
          some ((b - 0xE0) * 4096 + (b2 - 0x80) * 64 + (b3 - 0x80), rest3)
        else none
      | _ => none
    else if b < 0xF8 then
      match rest with
      | b2 :: b3 :: b4 :: rest4 =>
        if (0x80 ≤ b2 ∧ b2 < 0xC0) ∧ (0x80 ≤ b3 ∧ b3 < 0xC0) ∧ (0x80 ≤ b4 ∧ b4 < 0xC0) ∧
            0x10000 ≤ (b - 0xF0) * 0x40000 + (b2 - 0x80) * 4096 + (b3 - 0x80) * 64 + (b4 - 0x80) ∧
            (b - 0xF0) * 0x40000 + (b2 - 0x80) * 4096 + (b3 - 0x80) * 64 + (b4 - 0x80) < 0x110000 then
          some ((b - 0xF0) * 0x40000 + (b2 - 0x80) * 4096 + (b3 - 0x80) * 64 + (b4 - 0x80), rest4)
        else none
      | _ => none
    else none

/-- Iterated one-scalar decoding, structurally recursive on a fuel bound.
Each successful `utf8DecodeOne` step consumes at least one byte, so fuel
equal to the byte count (as supplied by `utf8Decode`) never runs out on an
input the strict decoder accepts. -/
def utf8DecodeAux : Nat → List Nat → Option (List Char)
  | _, [] => some []
  | 0, _ :: _ => none
  | fuel + 1, b :: rest =>
    match utf8DecodeOne (b :: rest) with
    | none => none
    | some (c, rest2) =>
      match utf8DecodeAux fuel rest2 with
      | some cs => some (Char.ofNat c :: cs)
      | none => none

/-- Strict UTF-8 decoding of a byte list into a string. -/
def utf8Decode (l : List Nat) : Option (List Char) := utf8DecodeAux l.length l

theorem utf8EncodeChar_lt_256 (c : Nat) (hc : c < 0x110000) :
    ∀ b ∈ utf8EncodeChar c, b < 256 := by
  intro b hb
  unfold utf8EncodeChar at hb
  split at hb
  · simp at hb
    omega
  · split at hb
    · simp at hb
      rcases hb with h | h <;> omega
    · split at hb
      · simp at hb
        rcases hb with h | h | h <;> omega
      · simp at hb
        rcases hb with h | h | h | h <;> omega

theorem utf8EncodeChar_ne_nil (c : Nat) : utf8EncodeChar c ≠ [] := by
  unfold utf8EncodeChar
  split
  · simp
  · split
    · simp
    · split <;> simp

theorem utf8DecodeOne_encodeChar (c : Nat) (hv : Nat.isValidChar c) (rest : List Nat) :
    utf8DecodeOne (utf8EncodeChar c ++ rest) = some (c, rest) := by
  have hrange : c < 0xD800 ∨ (0xDFFF < c ∧ c < 0x110000) := hv
  by_cases h1 : c < 0x80
  · simp only [utf8EncodeChar, if_pos h1, List.cons_append, List.nil_append, utf8DecodeOne]
  · by_cases h2 : c < 0x800
    · simp only [utf8EncodeChar, if_neg h1, if_pos h2, List.cons_append, List.nil_append,
        utf8DecodeOne]
      rw [if_neg (by omega), if_neg (by omega), if_pos (by omega)]
      rw [if_pos (by omega)]
      have hc : (0xC0 + c / 64 - 0xC0) * 64 + (0x80 + c % 64 - 0x80) = c := by omega
      rw [hc]
    · by_cases h3 : c < 0x10000
      · simp only [utf8EncodeChar, if_neg h1, if_neg h2, if_pos h3, List.cons_append,
          List.nil_append, utf8DecodeOne]
        rw [if_neg (by omega), if_neg (by omega), if_neg (by omega), if_pos (by omega)]
        rw [if_pos (by omega)]
        have hc : (0xE0 + c / 4096 - 0xE0) * 4096 + (0x80 + c / 64 % 64 - 0x80) * 64 +
            (0x80 + c % 64 - 0x80) = c := by omega
        rw [hc]
      · have h4 : c < 0x110000 := by omega
        simp only [utf8EncodeChar, if_neg h1, if_neg h2, if_neg h3, List.cons_append,
          List.nil_append, utf8DecodeOne]
        rw [if_neg (by omega), if_neg (by omega), if_neg (by omega), if_neg (by omega),
          if_pos (by omega)]
        rw [if_pos (by omega)]
        have hc : (0xF0 + c / 0x40000 - 0xF0) * 0x40000 + (0x80 + c / 4096 % 64 - 0x80) * 4096 +
            (0x80 + c / 64 % 64 - 0x80) * 64 + (0x80 + c % 64 - 0x80) = c := by omega
        rw [hc]

theorem utf8DecodeAux_roundtrip : ∀ (l : List Char) (fuel : Nat), l.length ≤ fuel →
    utf8DecodeAux fuel (utf8Encode l) = some l
  | [], fuel => by
    intro _
    cases fuel <;> simp [utf8Encode, utf8DecodeAux]
  | c :: rest, 0 => by
    intro h
    simp at h
  | c :: rest, fuel + 1 => by
    intro h
    have ih := utf8DecodeAux_roundtrip rest fuel (by simp at h; omega)
    have hv : Nat.isValidChar c.toNat := c.valid
    have henc : utf8Encode (c :: rest) = utf8EncodeChar c.toNat ++ utf8Encode rest := by
      simp [utf8Encode]
    obtain ⟨b, bs, hb⟩ : ∃ b bs, utf8EncodeChar c.toNat = b :: bs := by
      cases hE : utf8EncodeChar c.toNat with
      | nil => exact absurd hE (utf8EncodeChar_ne_nil _)
      | cons b bs => exact ⟨b, bs, rfl⟩
    have hcons : utf8Encode (c :: rest) = b :: (bs ++ utf8Encode rest) := by
      rw [henc, hb]
      simp
    have hone : utf8DecodeOne (b :: (bs ++ utf8Encode rest)) = some (c.toNat, utf8Encode rest) := by
      have := utf8DecodeOne_encodeChar c.toNat hv (utf8Encode rest)
      rw [hb] at this
      simpa using this
    rw [hcons]
    simp only [utf8DecodeAux]
    rw [hone]
    simp only
    rw [ih]
    simp [Char.ofNat_toNat]

theorem utf8Encode_length_ge (l : List Char) : l.length ≤ (utf8Encode l).length := by
  induction l with
  | nil => simp [utf8Encode]
  | cons c rest ih =>
    have henc : utf8Encode (c :: rest) = utf8EncodeChar c.toNat ++ utf8Encode rest := by
      simp [utf8Encode]
    have hpos : 0 < (utf8EncodeChar c.toNat).length :=
      List.length_pos.mpr (utf8EncodeChar_ne_nil c.toNat)
    rw [henc, List.length_append, List.length_cons]
    omega

theorem utf8_roundtrip (l : List Char) : utf8Decode (utf8Encode l) = some l :=
  utf8DecodeAux_roundtrip l (utf8Encode l).length (utf8Encode_length_ge l)

/-- Python `base64.b64encode(s.encode('utf-8')).decode('ascii')`. -/
def b64OfString (s : String) : String := String.mk (b64Encode (utf8Encode s.data))

/-- Python `base64.b64decode(v).decode('utf-8')` (raises, i.e. `none`, on
invalid base64 or invalid UTF-8). -/
def b64Utf8Decode (v : String) : Option String :=
  match b64Decode v.data with
  | none => none
  | some bs =>
    match utf8Decode bs with
    | none => none
    | some cs => some (String.mk cs)

theorem b64OfString_roundtrip (s : String) : b64Utf8Decode (b64OfString s) = some s := by
  have hbytes : ∀ b ∈ utf8Encode s.data, b < 256 := by
    intro b hb
    unfold utf8Encode at hb
    obtain ⟨l, hl, hbl⟩ := List.mem_flatten.mp hb
    obtain ⟨c, _, rfl⟩ := List.mem_map.mp hl
    have hvc : Nat.isValidChar c.toNat := c.valid
    have : c.toNat < 0x110000 := by
      rcases hvc with h | ⟨_, h⟩ <;> omega
    exact utf8EncodeChar_lt_256 c.toNat this b hbl
  unfold b64Utf8Decode b64OfString
  rw [show (String.mk (b64Encode (utf8Encode s.data))).data = b64Encode (utf8Encode s.data)
    from rfl]
  rw [b64_roundtrip _ hbytes]
  simp only [utf8_roundtrip]

/-! ## Data model

Blob stores are partial maps from blob names to blob values.  Metadata maps
are association lists (lookup returns the first binding; the Python dicts the
code builds never contain duplicate keys). -/

abbrev Meta := List (String × String)

/-- Python `meta.get(k)` / `meta[k]` presence. -/
def mlookup (m : Meta) (k : String) : Option String :=
  match m.find? (fun p => p.1 == k) with
  | none => none
  | some p => some p.2

/-- Python `k in meta`. -/
def mhas (m : Meta) (k : String) : Bool := (mlookup m k).isSome

/-- The metadata-propagation loop the source repeats in
`generate_eventgrid_trigger`, `regenerate_minutes` and `translate_minutes`:
copy each key of `keys` that is present in `src`, in order. -/
def propagate (src : Meta) (keys : List String) : Meta :=
  keys.filterMap (fun k => (mlookup src k).map (fun v => (k, v)))

/-- A minutes blob: UTF-8 text content plus metadata. -/
structure MinutesBlob where
  content : String
  meta : Meta

/-- A transcript blob, as consumed by the pipeline: the two JSON fields the
code reads (`combinedRecognizedPhrases[0].display` and `source`); a missing
field models a JSON document lacking it (whose access raises `KeyError` /
`IndexError`). -/
structure TranscriptDoc where
  display : Option String
  source : Option String

abbrev MStore := String → Option MinutesBlob

abbrev TStore := String → Option TranscriptDoc

/-- The audio store only matters for metadata lookups downstream. -/
abbrev AStore := String → Option Meta

def updStore (s : MStore) (k : String) (v : MinutesBlob) : MStore :=
  fun n => if n = k then some v else s n

/-! ## Responses -/

inductive Json where
  | null
  | bool (b : Bool)
  | str (s : String)
  | obj (kvs : List (String × Json))

inductive RespBody where
  | text (s : String)
  | json (j : Json)

structure HttpResponse where
  status : Nat
  body : RespBody

/-- Python `a or b` for two optional strings, as serialised to JSON
(`None` serialises to `null`). -/
def pyOrJson (a b : Option String) : Json :=
  match truthyStr a with
  | some s => .str s
  | none =>
    match truthyStr b with
    | some s => .str s
    | none => .null

def optJson : Option String → Json
  | some s => .str s
  | none => .null

/-! ## Naming & identity resolver -/

/-- `upload_http_trigger` lines 53-54: `base_name, extension = os.path.splitext(
original_filename)`; `audio_filename = f"{base_name}_{uuid.uuid4()}{extension}"`.
The freshly generated UUID string is passed in as `u`. -/
def uploadAudioName (f u : String) : String :=
  (pySplitext f).1 ++ "_" ++ u ++ (pySplitext f).2

/-- `list_minutes` line 332: `job_id = base[:-12] if base.endswith('_minutes.txt')
and len(base) > len('_minutes.txt') else os.path.splitext(base)[0]`
(`len('_minutes.txt') = 12`). -/
def minutesJobId (base : String) : String :=
  if strEndsWith base "_minutes.txt" ∧ base.length > 12 then strDropRight base 12
  else (pySplitext base).1

/-- `generate_eventgrid_trigger` lines 260-264: minutes blob name derived from
the audio base name, under a per-user virtual folder when `user_id` is known. -/
def deriveMinutesName (audioBase : String) (uid? : Option String) : String :=
  match uid? with
  | some u => "users/" ++ u ++ "/" ++ audioBase ++ "_minutes.txt"
  | none => audioBase ++ "_minutes.txt"

/-- `extractor.py` lines 151-154: the user id embedded in a `users/{id}/...`
blob path (the second `/`-separated segment, when nonempty). -/
def extractUserIdFromPath (name : String) : Option String :=
  if strStartsWith name "users/" then
    match (pySplit '/' name.data).get? 1 with
    | some seg => if seg ≠ [] then some (String.mk seg) else none
    | none => none
  else none

/-- `extractor.py` lines 53-63 (`derive_output_blob_name`): preserve a
`users/{id}/` prefix when present and replace the file part by
`{base}_audio.wav`.  Note: no uniqueness token is involved. -/
def derive_output_blob_name (src : String) : String :=
  let pf :=
    if strStartsWith src "users/" then
      let parts := pySplit '/' src.data
      if parts.length ≥ 3 then
        (String.mk (List.intercalate ['/'] (parts.take 2)) ++ "/",
         String.mk (parts.getLastD []))
      else ("", src)
    else ("", src)
  pf.1 ++ String.mk (splitextL (basenameL pf.2.data)).1 ++ "_audio.wav"

/-- `upload_http_trigger` lines 66-78: build the initial metadata map attached
to the uploaded audio blob (base64-encoding UTF-8 values, omitting the
optional identity keys when falsy). -/
def buildUploadMetadata (prompt original_filename : String)
    (user_id user_details : Option String) : Meta :=
  [("original_prompt_b64", b64OfString prompt),
   ("original_filename_b64", b64OfString original_filename)]
  ++ (match truthyStr user_id with
      | some u => [("user_id", u)]
      | none => [])
  ++ (match truthyStr user_details with
      | some d => [("user_details_b64", b64OfString d)]
      | none => [])

/-- The system prompt and user prompt assembled for the chat-completion call
(`generate_eventgrid_trigger` line 240 and `regenerate_minutes` line 607 use
the identical f-string). -/
def buildFinalPrompt (userPrompt transcript : String) : String :=
  "Please create meeting minutes based on the following transcription and user prompt.\n\nUser Prompt: "
  ++ userPrompt ++ "\n\nTranscription:\n\n" ++ transcript

/-! ## Ownership check

The source repeats the identical two-step check in `status` (lines 416-432),
`get_minutes` (lines 477-485), `regenerate_minutes` (lines 567-572) and
`translate_minutes` (lines 699-707); both steps return the same 403 response,
so the check is embedded once as a single boolean:
step 1 rejects when the name starts with `users/` but not with
`users/{current_user_id}/`; step 2 rejects when the `user_id` metadata value
is truthy and differs from the caller id. -/
def ownForbidden (u name : String) (meta : Meta) : Bool :=
  (!(strStartsWith name ("users/" ++ u ++ "/")) && strStartsWith name "users/")
  || (match truthyStr (mlookup meta "user_id") with
      | some owner => owner != u
      | none => false)

/-! ## `status` endpoint (lines 365-447)

`uid?` is the `userId` claim decoded from the `X-MS-CLIENT-PRINCIPAL` header
(`none` when the header is absent, unparseable, or carries no `userId`).
Configuration is assumed present (a missing connection string yields a 500
not modelled here). -/
def statusOp (mstore : MStore) (uid? jobId? name? : Option String) : HttpResponse :=
  match truthyStr jobId?, truthyStr name? with
  | none, none => ⟨400, .text "Missing job_id or name."⟩
  | jt, nt =>
    let blob_name :=
      match nt with
      | some n => n
      | none =>
        match truthyStr uid? with
        | some u => "users/" ++ u ++ "/" ++ jt.getD "" ++ "_minutes.txt"
        | none => jt.getD "" ++ "_minutes.txt"
    match mstore blob_name with
    | none =>
      ⟨404, .json (.obj [("status", .str "pending"), ("job_id", pyOrJson jobId? name?)])⟩
    | some blob =>
      match truthyStr uid? with
      | some u =>
        if ownForbidden u blob_name blob.meta then
          ⟨403, .json (.obj [("status", .str "forbidden")])⟩
        else
          ⟨200, .json (.obj [("status", .str "completed"), ("job_id", pyOrJson jobId? name?),
            ("minutes", .str blob.content)])⟩
      | none =>
        ⟨200, .json (.obj [("status", .str "completed"), ("job_id", pyOrJson jobId? name?),
          ("minutes", .str blob.content)])⟩

/-! ## `get-minutes` endpoint (lines 450-515)

The `Content-Disposition` header derivation is not modelled (no claim covers
it); the body is the blob text. -/
def getMinutesOp (mstore : MStore) (uid? name? : Option String) : HttpResponse :=
  match truthyStr name? with
  | none => ⟨400, .text "Missing name."⟩
  | some name =>
    match mstore name with
    | none => ⟨404, .text "Not found."⟩
    | some blob =>
      match truthyStr uid? with
      | some u =>
        if ownForbidden u name blob.meta then ⟨403, .text "Forbidden."⟩
        else ⟨200, .text blob.content⟩
      | none => ⟨200, .text blob.content⟩

/-- `regenerate_minutes` lines 619-624: the timestamp-versioned output name
`{prefix}{audio_base}_minutes_{ts}.txt`. -/
def versionedMinutesName (uid? : Option String) (audio_base ts : String) : String :=
  match uid? with
  | some u => "users/" ++ u ++ "/" ++ audio_base ++ "_minutes_" ++ ts ++ ".txt"
  | none => audio_base ++ "_minutes_" ++ ts ++ ".txt"

/-! ## `regenerate-minutes` endpoint (lines 518-644)

`ai` is the chat-completion oracle (final user prompt to generated text,
assumed to succeed), `ts` the value of
`datetime.utcnow().strftime('%Y%m%d%H%M%S')`.  Configuration is assumed
present.  Python exceptions surface as the generic 500 response of the
handler's `except` block. -/
def regenWithTranscript (mstore : MStore) (tstore : TStore) (astore : AStore)
    (ai : String → String) (ts : String) (uid? : Option String)
    (new_prompt tn : String) : HttpResponse × MStore :=
  match tstore tn with
  | none => (⟨404, .text "Transcript not found."⟩, mstore)
  | some doc =>
    match doc.display, doc.source with
    | some disp, some src =>
      let aname := pyBasename (urlPath src)
      match astore aname with
      | none => (⟨500, .text "Failed to regenerate minutes."⟩, mstore)
      | some ameta =>
        if (match mlookup ameta "user_id", truthyStr uid? with
            | some o, some u => o != u
            | _, _ => false) then (⟨403, .text "Forbidden."⟩, mstore)
        else
          let regenerated := ai (buildFinalPrompt new_prompt disp)
          let audio_base := String.mk (splitextL aname.data).1
          let out_name := versionedMinutesName (truthyStr uid?) audio_base ts
          let mmeta := ("transcript_blob_name", tn) ::
            propagate ameta ["user_id", "user_details_b64", "original_prompt_b64",
              "original_filename_b64"]
          (⟨200, .json (.obj [("name", .str out_name), ("minutes", .str regenerated)])⟩,
           updStore mstore out_name ⟨regenerated, mmeta⟩)
    | _, _ => (⟨500, .text "Failed to regenerate minutes."⟩, mstore)

def regenerateOp (mstore : MStore) (tstore : TStore) (astore : AStore)
    (ai : String → String) (ts : String)
    (uid? prompt? tname? mname? : Option String) : HttpResponse × MStore :=
  match truthyStr prompt? with
  | none => (⟨400, .text "Missing prompt."⟩, mstore)
  | some new_prompt =>
    match truthyStr mname?, truthyStr tname? with
    | some mn, none =>
      match mstore mn with
      | none => (⟨404, .text "Minutes not found."⟩, mstore)
      | some blob =>
        let fb := match truthyStr uid? with
          | some u => ownForbidden u mn blob.meta
          | none => false
        if fb then (⟨403, .text "Forbidden."⟩, mstore)
        else
          match truthyStr (mlookup blob.meta "transcript_blob_name") with
          | none => (⟨400, .text "Cannot locate original transcript for regeneration."⟩, mstore)
          | some tn => regenWithTranscript mstore tstore astore ai ts uid? new_prompt tn
    | _, some tn => regenWithTranscript mstore tstore astore ai ts uid? new_prompt tn
    | none, none => (⟨400, .text "Missing transcript_name."⟩, mstore)

/-! ## `translate-minutes` endpoint (lines 647-826)

`tr` is the translation-service oracle: `fail` models a request exception or
a non-2xx response (both surface as 502), `parseFail` a 2xx response whose
JSON does not carry a translation (translated stays `None`, surfacing as
500), `ok` a successful translation with an optionally detected source
language.  The `from` parameter, region header and endpoint-shape
normalisation only affect the outgoing request and are not modelled;
configuration is assumed present. -/
inductive TrOutcome where
  | fail
  | parseFail
  | ok (text : String) (detected : Option String)

def translateFinish (mstore : MStore) (ts : String) (uid? mname? : Option String)
    (mmeta : Meta) (to_lang translated : String) (detected? : Option String)
    (save : Bool) : HttpResponse × MStore :=
  if save then
    let base :=
      match truthyStr mname? with
      | some n => String.mk (splitextL (basenameL n.data)).1
      | none => "minutes"
    let user_for_path :=
      match truthyStr uid? with
      | some u => some u
      | none => truthyStr (mlookup mmeta "user_id")
    let px :=
      match user_for_path with
      | some u => "users/" ++ u ++ "/"
      | none => ""
    let saved_name := px ++ base ++ "_translated_" ++ to_lang ++ "_" ++ ts ++ ".txt"
    let out_meta := propagate mmeta ["user_id", "user_details_b64", "original_prompt_b64",
        "original_filename_b64", "transcript_blob_name"]
      ++ [("translated_from_name", (truthyStr mname?).getD ""), ("translated_to", to_lang)]
      ++ (match detected? with
          | some d => [("detected_language", d)]
          | none => [])
    (⟨200, .json (.obj [("to", .str to_lang), ("detected", optJson detected?),
        ("translated", .str translated), ("saved", .bool true), ("name", .str saved_name)])⟩,
     updStore mstore saved_name ⟨translated, out_meta⟩)
  else
    (⟨200, .json (.obj [("to", .str to_lang), ("detected", optJson detected?),
        ("translated", .str translated), ("saved", .bool false), ("name", .null)])⟩,
     mstore)

def translateCore (mstore : MStore) (tr : String → TrOutcome) (ts : String)
    (uid? mname? : Option String) (mmeta : Meta) (to_lang source_text : String)
    (save : Bool) (pre? : Option String) : HttpResponse × MStore :=
  match truthyStr pre?, save with
  | some p, true => translateFinish mstore ts uid? mname? mmeta to_lang p none true
  | _, _ =>
    match tr source_text with
    | .fail => (⟨502, .text "Translator request failed."⟩, mstore)
    | .parseFail => (⟨500, .text "Failed to parse translation result."⟩, mstore)
    | .ok t d => translateFinish mstore ts uid? mname? mmeta to_lang t d save

def translateOp (mstore : MStore) (tr : String → TrOutcome) (ts : String)
    (uid? name? text? to? : Option String) (save : Bool) (pre? : Option String) :
    HttpResponse × MStore :=
  match truthyStr to? with
  | none => (⟨400, .text "Missing 'to' language."⟩, mstore)
  | some to_lang =>
    match truthyStr name?, truthyStr text? with
    | none, none => (⟨400, .text "Provide either 'name' or 'text'."⟩, mstore)
    | nameT, _ =>
      match nameT with
      | some name =>
        match mstore name with
        | none => (⟨404, .text "Minutes not found."⟩, mstore)
        | some blob =>
          -- the access check and the metadata capture both sit inside the
          -- `if current_user_id:` block (lines 700-707): with an anonymous
          -- caller `minutes_metadata` stays `{}`
          match truthyStr uid? with
          | some u =>
            if ownForbidden u name blob.meta then (⟨403, .text "Forbidden."⟩, mstore)
            else
              let source_text :=
                match text? with
                | none => blob.content
                | some t => t
              translateCore mstore tr ts uid? (some name) blob.meta to_lang source_text save pre?
          | none =>
            let source_text :=
              match text? with
              | none => blob.content
              | some t => t
            translateCore mstore tr ts uid? (some name) [] to_lang source_text save pre?
      | none =>
        translateCore mstore tr ts uid? none [] to_lang (text?.getD "") save pre?

/-! ## Event-Grid batch handlers

An incoming event is modelled by the fields the handlers access; `none`
models an absent JSON field, whose subscript access raises `KeyError`. -/
structure Event where
  eventType : Option String
  id : Option String
  url : Option String
  validationCode : Option String

/-- Externally observable side effects of one `generate` invocation. -/
inductive GenEffect where
  | download (name : String)
  | aiCall (finalPrompt : String)
  | write (name : String) (content : String) (meta : Meta)

/-- Environment of `generate_eventgrid_trigger`: the transcripts and audio
stores and the chat-completion oracle (assumed to succeed; configuration is
assumed present). -/
structure GenEnv where
  tstore : TStore
  astore : AStore
  ai : String → String

/-- Processing of one `Microsoft.Storage.BlobCreated` event inside the loop
of `generate_eventgrid_trigger` (lines 189-277).  Returns the effects
performed so far plus `true` when the processing raised (the exception then
propagates out of the `for` loop to the handler's `except` block). -/
def processGenEvent (env : GenEnv) (e : Event) : List GenEffect × Bool :=
  match e.url with
  | none => ([], true)
  | some url =>
    match splitOnceSub "/transcripts/".data (urlPath url).data with
    | none => ([], true)
    | some (_, tnl) =>
      let tname := String.mk tnl
      if ¬ strStartsWith (pyBasename tname) "contenturl_" then ([], false)
      else
        match env.tstore tname with
        | none => ([.download tname], true)
        | some doc =>
          match doc.display, doc.source with
          | some disp, some src =>
            let aname := pyBasename (urlPath src)
            match env.astore aname with
            | none => ([.download tname], true)
            | some ameta =>
              match mlookup ameta "original_prompt_b64" with
              | none => ([.download tname], true)
              | some pb64 =>
                match b64Utf8Decode pb64 with
                | none => ([.download tname], true)
                | some user_prompt =>
                  match mlookup ameta "original_filename_b64" with
                  | none => ([.download tname], true)
                  | some fb64 =>
                    match b64Utf8Decode fb64 with
                    | none => ([.download tname], true)
                    | some _ =>
                      let finalPrompt := buildFinalPrompt user_prompt disp
                      let minutes := env.ai finalPrompt
                      let audio_base := String.mk (splitextL aname.data).1
                      let mname := deriveMinutesName audio_base
                        (truthyStr (mlookup ameta "user_id"))
                      let mmeta := propagate ameta ["user_id", "user_details_b64",
                          "original_prompt_b64", "original_filename_b64"]
                        ++ [("transcript_blob_name", tname)]
                      ([.download tname, .aiCall finalPrompt, .write mname minutes mmeta],
                       false)
          | _, _ => ([.download tname], true)

/-- The batch loop of `generate_eventgrid_trigger` with its surrounding
try/except: a subscription-validation event returns immediately; an exception
while processing a blob-created event aborts the loop and yields the generic
500; otherwise the loop continues and finally answers 200. -/
def genBatch (env : GenEnv) : List Event → HttpResponse × List GenEffect
  | [] => (⟨200, .text "Generation event processed."⟩, [])
  | e :: rest =>
    if e.eventType = some "Microsoft.EventGrid.SubscriptionValidationEvent" then
      match e.validationCode with
      | some c => (⟨200, .json (.obj [("validationResponse", .str c)])⟩, [])
      | none => (⟨500, .text "An error occurred while processing the generation event."⟩, [])
    else if e.eventType = some "Microsoft.Storage.BlobCreated" then
      match processGenEvent env e with
      | (effs, true) =>
        (⟨500, .text "An error occurred while processing the generation event."⟩, effs)
      | (effs, false) =>
        let r := genBatch env rest
        (r.1, effs ++ r.2)
    else genBatch env rest

/-- Environment of `transcribe_eventgrid_trigger`: which configuration values
are present and whether the speech-service dispatch succeeds (2xx). -/
structure TransCfg where
  hasConn : Bool
  hasSpeechKey : Bool
  hasSpeechEndpoint : Bool
  hasDestUrl : Bool
  speechOk : Bool

/-- Per-event step of `transcribe_eventgrid_trigger` (lines 92-172):
`some r` is an early return with response `r` (validation handshake, the
explicit configuration-error returns, or an exception caught by one of the
two `except` blocks); `none` continues the loop. -/
def transcribeEvent (cfg : TransCfg) (e : Event) : Option HttpResponse :=
  if e.eventType = some "Microsoft.EventGrid.SubscriptionValidationEvent" then
    match e.validationCode with
    | some c => some ⟨200, .json (.obj [("validationResponse", .str c)])⟩
    | none => some ⟨500, .text "An error occurred while processing the event."⟩
  else if e.eventType = some "Microsoft.Storage.BlobCreated" then
    match e.id, e.url with
    | some _, some _ =>
      if !cfg.hasConn then some ⟨500, .text "An error occurred while processing the event."⟩
      else if !(cfg.hasSpeechKey && cfg.hasSpeechEndpoint) then
        some ⟨500, .text "Server configuration error."⟩
      else if !cfg.hasDestUrl then some ⟨500, .text "Server configuration error."⟩
      else if cfg.speechOk then none
      else some ⟨500, .text "Failed to communicate with speech service."⟩
    | _, _ => some ⟨500, .text "An error occurred while processing the event."⟩
  else none

def transcribeBatch (cfg : TransCfg) : List Event → HttpResponse
  | [] => ⟨200, .text "Event processed."⟩
  | e :: rest =>
    match transcribeEvent cfg e with
    | some r => r
    | none => transcribeBatch cfg rest

/-! ## Supporting lemmas for the naming claims -/

theorem splitextL_root_subset (l : List Char) : (splitextL l).1 ⊆ l := by
  unfold splitextL
  cases hd : rlastIdx '.' l with
  | none => simp
  | some d =>
    simp only
    split
    · exact List.take_subset d l
    · simp

/-- Stripping the fixed `_minutes.txt` suffix recovers any nonempty base:
the core of the `list_minutes` job-id derivation. -/
theorem minutesJobId_append (abl : List Char) (h : abl ≠ []) :
    minutesJobId (String.mk (abl ++ "_minutes.txt".data)) = String.mk abl := by
  have hd : (String.mk (abl ++ "_minutes.txt".data)).data = abl ++ "_minutes.txt".data := rfl
  have hsl : ("_minutes.txt".data).length = 12 := by decide
  have hE : strEndsWith (String.mk (abl ++ "_minutes.txt".data)) "_minutes.txt" = true := by
    unfold strEndsWith endsWithL
    rw [hd]
    have hl : (abl ++ "_minutes.txt".data).length - ("_minutes.txt".data).length = abl.length := by
      simp
    rw [hl, List.drop_left]
    simp
  have hL : (String.mk (abl ++ "_minutes.txt".data)).length > 12 := by
    show (abl ++ "_minutes.txt".data).length > 12
    have hpos := List.length_pos.mpr h
    rw [List.length_append, hsl]
    omega
  unfold minutesJobId
  rw [if_pos ⟨hE, hL⟩]
  unfold strDropRight
  rw [hd]
  have hl2 : (abl ++ "_minutes.txt".data).length - 12 = abl.length := by
    rw [List.length_append, hsl]
    omega
  rw [hl2, List.take_left]

/-- With a `users/{uid}/` prefix, `os.path.basename` recovers the slash-free
file part of a derived minutes name. -/
theorem pyBasename_deriveMinutesName (ab : String) (uid? : Option String)
    (hab : '/' ∉ ab.data) :
    pyBasename (deriveMinutesName ab uid?) = String.mk (ab.data ++ "_minutes.txt".data) := by
  have hsfx : '/' ∉ "_minutes.txt".data := by decide
  have hfile : '/' ∉ ab.data ++ "_minutes.txt".data := by
    intro hmem
    rcases List.mem_append.mp hmem with hm | hm
    · exact hab hm
    · exact hsfx hm
  cases uid? with
  | none =>
    unfold deriveMinutesName pyBasename
    have hd : (ab ++ "_minutes.txt").data = ab.data ++ "_minutes.txt".data :=
      String.data_append ab "_minutes.txt"
    rw [hd, basenameL_of_no_sep _ hfile]
  | some u =>
    unfold deriveMinutesName pyBasename
    have hd : ("users/" ++ u ++ "/" ++ ab ++ "_minutes.txt").data =
        ("users/".data ++ u.data) ++ '/' :: (ab.data ++ "_minutes.txt".data) := by
      simp [String.data_append]
    rw [hd, basenameL_append _ _ hfile]

/-- CLAIM C2.  For every valid original filename `f` (slash-free, arbitrary
dots, may contain the substring "minutes") and every uniqueness token `u`
(slash-free, e.g. a UUID), the job id that `list_minutes` derives from the
minutes blob name `{audioBase}_minutes.txt` — by the fixed 12-character
suffix check, with or without a `users/{id}/` prefix — equals the audio base
name `audioBase = os.path.splitext(audio_filename)[0]` from which
`generate_eventgrid_trigger` derived the minutes name. -/
theorem c2_jobid_roundtrip (f u : String) (uid? : Option String)
    (hf : '/' ∉ f.data) (hu : '/' ∉ u.data) :
    minutesJobId (pyBasename (deriveMinutesName
      (String.mk (splitextL (uploadAudioName f u).data).1) uid?)) =
    String.mk (splitextL (uploadAudioName f u).data).1 := by
  have hw : (uploadAudioName f u).data =
      (pySplitext f).1.data ++ "_".data ++ u.data ++ (pySplitext f).2.data := by
    unfold uploadAudioName
    simp [String.data_append]
  have hfsub1 : (pySplitext f).1.data ⊆ f.data := by
    show (splitextL f.data).1 ⊆ f.data
    exact splitextL_root_subset f.data
  have hfsub2 : (pySplitext f).2.data ⊆ f.data := by
    show (splitextL f.data).2 ⊆ f.data
    unfold splitextL
    cases hd : rlastIdx '.' f.data with
    | none => simp
    | some d =>
      simp only
      split
      · exact List.drop_subset d f.data
      · simp
  have hwnoslash : '/' ∉ (uploadAudioName f u).data := by
    rw [hw]
    intro hmem
    rcases List.mem_append.mp hmem with hm | hm
    · rcases List.mem_append.mp hm with hm2 | hm2
      · rcases List.mem_append.mp hm2 with hm3 | hm3
        · exact hf (hfsub1 hm3)
        · simp at hm3
      · exact hu hm2
    · exact hf (hfsub2 hm)
  have hwne : (uploadAudioName f u).data ≠ [] := by
    rw [hw]
    intro hnil
    have h1 := (List.append_eq_nil.mp hnil).1
    have h2 := (List.append_eq_nil.mp h1).1
    have h3 := (List.append_eq_nil.mp h2).2
    simp at h3
  have habne : (splitextL (uploadAudioName f u).data).1 ≠ [] :=
    splitextL_root_ne_nil _ hwne
  have habnoslash : '/' ∉ (String.mk (splitextL (uploadAudioName f u).data).1).data := by
    intro hmem
    exact hwnoslash (splitextL_root_subset _ hmem)
  rw [pyBasename_deriveMinutesName _ _ habnoslash]
  exact minutesJobId_append _ habne

/-- Witness for C2 at a filename containing dots and the substring
"minutes", a UUID-shaped token and a user prefix. -/
theorem c2_jobid_roundtrip_witness :
    ('/' ∉ "my.report_minutes.txt.notes.mp4".data ∧
     '/' ∉ "123e4567-e89b-12d3-a456-426614174000".data) ∧
    minutesJobId (pyBasename (deriveMinutesName
      (String.mk (splitextL (uploadAudioName "my.report_minutes.txt.notes.mp4"
        "123e4567-e89b-12d3-a456-426614174000").data).1) (some "alice"))) =
    String.mk (splitextL (uploadAudioName "my.report_minutes.txt.notes.mp4"
      "123e4567-e89b-12d3-a456-426614174000").data).1 :=
  ⟨⟨by decide, by decide⟩,
   c2_jobid_roundtrip "my.report_minutes.txt.notes.mp4"
     "123e4567-e89b-12d3-a456-426614174000" (some "alice") (by decide) (by decide)⟩

/-- CLAIM C3, counterexample.  The extraction stage's name derivation
(`extractor.py`, `derive_output_blob_name`) carries no uniqueness token: it
is a pure function of the source blob name, so two distinct extraction
invocations on the same source derive the same artifact name — and even two
different sources (`mtg.mp4`, `mtg.avi`) collide on `mtg_audio.wav`.  This
refutes "no two extraction invocations can write the same artifact name". -/
theorem c3_counterexample :
    derive_output_blob_name "mtg.mp4" = "mtg_audio.wav" ∧
    derive_output_blob_name "mtg.avi" = "mtg_audio.wav" := by
  constructor <;> decide

/-- CLAIM C3, amended.  The uniqueness token lives only in the HTTP upload
path (`upload_http_trigger` lines 53-54): for a fixed original filename,
distinct uniqueness tokens yield distinct audio blob names.  The extractor
job's derivation is deterministic and offers no such guarantee (see the
counterexample). -/
theorem c3_upload_uniqueness (f u1 u2 : String) (hne : u1 ≠ u2) :
    uploadAudioName f u1 ≠ uploadAudioName f u2 := by
  intro heq
  apply hne
  have hdata : (uploadAudioName f u1).data = (uploadAudioName f u2).data :=
    congrArg String.data heq
  unfold uploadAudioName at hdata
  simp only [String.data_append, List.append_assoc] at hdata
  have h2 := List.append_cancel_left hdata
  have h3 := List.append_cancel_left h2
  have h4 := List.append_cancel_right h3
  cases u1
  cases u2
  congr 1

/-- Witness for the amended C3 at concrete distinct tokens. -/
theorem c3_upload_uniqueness_witness :
    ("123e4567-e89b-12d3-a456-426614174000" : String) ≠
      "ffffffff-0000-4000-8000-000000000000" ∧
    uploadAudioName "mtg.mp4" "123e4567-e89b-12d3-a456-426614174000" ≠
      uploadAudioName "mtg.mp4" "ffffffff-0000-4000-8000-000000000000" :=
  ⟨by decide,
   c3_upload_uniqueness "mtg.mp4" "123e4567-e89b-12d3-a456-426614174000"
     "ffffffff-0000-4000-8000-000000000000" (by decide)⟩

/-- CLAIM C8.  A transcripts-namespace blob-created event whose basename
does not start with `contenturl_` is a no-op for the Minutes Generation
stage: no storage download, no chat-completion call, no blob write, no
error, and a singleton batch answers 200. -/
theorem c8_skip_noop (env : GenEnv) (e : Event) (url : String) (pre tnl : List Char)
    (hty : e.eventType = some "Microsoft.Storage.BlobCreated")
    (hurl : e.url = some url)
    (hsplit : splitOnceSub "/transcripts/".data (urlPath url).data = some (pre, tnl))
    (hpre : strStartsWith (pyBasename (String.mk tnl)) "contenturl_" = false) :
    processGenEvent env e = ([], false) ∧
    genBatch env [e] = (⟨200, .text "Generation event processed."⟩, []) := by
  have hp : processGenEvent env e = ([], false) := by
    unfold processGenEvent
    rw [hurl]
    simp only
    rw [hsplit]
    simp [hpre]
  refine ⟨hp, ?_⟩
  unfold genBatch
  rw [hty]
  rw [if_neg (by simp), if_pos rfl, hp]
  simp [genBatch]

/-- Witness for C8: a summary/report transcript blob (`report.json`). -/
theorem c8_skip_noop_witness :
    processGenEvent ⟨fun _ => none, fun _ => none, fun s => s⟩
      ⟨some "Microsoft.Storage.BlobCreated", some "evt-1",
       some "https://acct.blob.core.windows.net/transcripts/report.json", none⟩ =
      ([], false) ∧
    genBatch ⟨fun _ => none, fun _ => none, fun s => s⟩
      [⟨some "Microsoft.Storage.BlobCreated", some "evt-1",
        some "https://acct.blob.core.windows.net/transcripts/report.json", none⟩] =
      (⟨200, .text "Generation event processed."⟩, []) :=
  c8_skip_noop ⟨fun _ => none, fun _ => none, fun s => s⟩
    ⟨some "Microsoft.Storage.BlobCreated", some "evt-1",
     some "https://acct.blob.core.windows.net/transcripts/report.json", none⟩
    "https://acct.blob.core.windows.net/transcripts/report.json"
    [] "report.json".data rfl rfl (by decide) (by decide)

/-! ## Concrete example environment for the generation-batch claims -/

/-- A well-formed transcript document whose source audio blob exists. -/
def exTranscript : TranscriptDoc :=
  ⟨some "Hello transcript", some "https://acct.blob.core.windows.net/audio/mtg_tok.wav"⟩

def exAudioMeta : Meta :=
  [("original_prompt_b64", b64OfString "p"),
   ("original_filename_b64", b64OfString "f.mp4"),
   ("user_id", "alice")]

/-- Audio metadata lacking the `original_prompt_b64` key (for C5). -/
def exAudioMetaNoPrompt : Meta :=
  [("original_filename_b64", b64OfString "f.mp4"), ("user_id", "alice")]

def exEnv : GenEnv :=
  ⟨fun n => if n = "contenturl_0.json" then some exTranscript else none,
   fun n => if n = "mtg_tok.wav" then some exAudioMeta else none,
   fun _ => "MINUTES"⟩

def exEnvNoPrompt : GenEnv :=
  ⟨fun n => if n = "contenturl_0.json" then some exTranscript else none,
   fun n => if n = "mtg_tok.wav" then some exAudioMetaNoPrompt else none,
   fun _ => "MINUTES"⟩

/-- A valid detailed-transcript blob-created event. -/
def exGoodEvent : Event :=
  ⟨some "Microsoft.Storage.BlobCreated", some "evt-good",
   some "https://acct.blob.core.windows.net/transcripts/contenturl_0.json", none⟩

/-- A blob-created event whose URL lacks the `/transcripts/` container
segment: `blob_path.split("/transcripts/", 1)[1]` raises `IndexError`. -/
def exBadEvent : Event :=
  ⟨some "Microsoft.Storage.BlobCreated", some "evt-bad",
   some "https://acct.blob.core.windows.net/other/contenturl_1.json", none⟩

/-- CLAIM C4, counterexample.  The whole event loop of
`generate_eventgrid_trigger` sits inside one try/except: an exception while
processing the first event aborts the loop, so the second (well-formed)
event of the same batch performs no effects at all — although alone it would
download, call the model and write the minutes blob.  This refutes
per-event failure isolation. -/
theorem c4_counterexample :
    genBatch exEnv [exBadEvent, exGoodEvent] =
      (⟨500, .text "An error occurred while processing the generation event."⟩, []) ∧
    genBatch exEnv [exGoodEvent] =
      (⟨200, .text "Generation event processed."⟩,
       [.download "contenturl_0.json",
        .aiCall (buildFinalPrompt "p" "Hello transcript"),
        .write "users/alice/mtg_tok_minutes.txt" "MINUTES"
          [("user_id", "alice"),
           ("original_prompt_b64", b64OfString "p"),
           ("original_filename_b64", b64OfString "f.mp4"),
           ("transcript_blob_name", "contenturl_0.json")]]) :=
  ⟨rfl, rfl⟩

/-- CLAIM C4, amended.  A failure while processing a blob-created event
aborts the batch: the handler answers the generic 500 and the remaining
events — whatever they are — are never processed; only effects of events
before the failing one survive. -/
theorem c4_batch_abort (env : GenEnv) (e : Event) (rest : List Event)
    (hty : e.eventType = some "Microsoft.Storage.BlobCreated")
    (herr : (processGenEvent env e).2 = true) :
    genBatch env (e :: rest) =
      (⟨500, .text "An error occurred while processing the generation event."⟩,
       (processGenEvent env e).1) := by
  rcases hpe : processGenEvent env e with ⟨effs, flag⟩
  rw [hpe] at herr
  simp only at herr
  subst herr
  unfold genBatch
  rw [hty, if_neg (by simp), if_pos rfl, hpe]

/-- Witness for the amended C4: with the failing event first, a batch of two
events stops at the failure, for every possible continuation. -/
theorem c4_batch_abort_witness :
    exBadEvent.eventType = some "Microsoft.Storage.BlobCreated" ∧
    (processGenEvent exEnv exBadEvent).2 = true ∧
    genBatch exEnv [exBadEvent, exGoodEvent] =
      (⟨500, .text "An error occurred while processing the generation event."⟩,
       (processGenEvent exEnv exBadEvent).1) :=
  ⟨rfl, rfl, c4_batch_abort exEnv exBadEvent [exGoodEvent] rfl rfl⟩

/-- CLAIM C5, counterexample.  When the source audio blob's metadata lacks
`original_prompt_b64`, line 227 (`audio_metadata['original_prompt_b64']`)
raises `KeyError`: the stage aborts with the generic 500 after the
transcript download and performs no chat-completion call and no write —
there is no empty-prompt fallback. -/
theorem c5_counterexample :
    processGenEvent exEnvNoPrompt exGoodEvent = ([.download "contenturl_0.json"], true) ∧
    genBatch exEnvNoPrompt [exGoodEvent] =
      (⟨500, .text "An error occurred while processing the generation event."⟩,
       [.download "contenturl_0.json"]) :=
  ⟨rfl, rfl⟩

/-- CLAIM C5, amended.  For every event that reaches the metadata-decoding
step with no `original_prompt_b64` key on its audio blob, the Minutes
Generation stage aborts that invocation (exception, so the batch returns
500): only the transcript download has happened, and no model call and no
write occur. -/
theorem c5_missing_prompt_aborts (env : GenEnv) (e : Event) (url : String)
    (pre tnl : List Char) (doc : TranscriptDoc) (disp src : String) (ameta : Meta)
    (hty : e.eventType = some "Microsoft.Storage.BlobCreated")
    (hurl : e.url = some url)
    (hsplit : splitOnceSub "/transcripts/".data (urlPath url).data = some (pre, tnl))
    (hpre : strStartsWith (pyBasename (String.mk tnl)) "contenturl_" = true)
    (ht : env.tstore (String.mk tnl) = some doc)
    (hdisp : doc.display = some disp)
    (hsrc : doc.source = some src)
    (ha : env.astore (pyBasename (urlPath src)) = some ameta)
    (hnop : mlookup ameta "original_prompt_b64" = none) :
    processGenEvent env e = ([.download (String.mk tnl)], true) ∧
    genBatch env [e] =
      (⟨500, .text "An error occurred while processing the generation event."⟩,
       [.download (String.mk tnl)]) := by
  have hp : processGenEvent env e = ([.download (String.mk tnl)], true) := by
    unfold processGenEvent
    rw [hurl]
    simp only
    rw [hsplit]
    simp only [hpre]
    rw [if_neg (by simp), ht]
    simp only
    rw [hdisp, hsrc]
    simp only
    rw [ha]
    simp only
    rw [hnop]
  refine ⟨hp, ?_⟩
  unfold genBatch
  rw [hty, if_neg (by simp), if_pos rfl, hp]

/-- Witness for the amended C5 at the concrete no-prompt environment. -/
theorem c5_missing_prompt_aborts_witness :
    mlookup exAudioMetaNoPrompt "original_prompt_b64" = none ∧
    processGenEvent exEnvNoPrompt exGoodEvent = ([.download "contenturl_0.json"], true) :=
  ⟨rfl,
   (c5_missing_prompt_aborts exEnvNoPrompt exGoodEvent
      "https://acct.blob.core.windows.net/transcripts/contenturl_0.json"
      [] "contenturl_0.json".data exTranscript "Hello transcript"
      "https://acct.blob.core.windows.net/audio/mtg_tok.wav" exAudioMetaNoPrompt
      rfl rfl (by decide) (by decide) rfl rfl rfl rfl rfl).1⟩

/-- Reading a `_b64` metadata field as `generate_eventgrid_trigger` line 227
does: `base64.b64decode(meta[k]).decode('utf-8')` (`none` models the
`KeyError`/decoding exception). -/
def decodeMetaField (m : Meta) (k : String) : Option String :=
  match mlookup m k with
  | some v => b64Utf8Decode v
  | none => none

/-- CLAIM C7.  For every UTF-8 prompt string (non-ASCII included: Lean
`String`s range over exactly the Unicode scalar values, as Python `str`
does), base64-decoding then UTF-8-decoding the `original_prompt_b64` entry
of the metadata map built at upload returns exactly the original prompt:
the upload-side encoding and the generation-side decoding round-trip. -/
theorem c7_prompt_roundtrip (prompt original_filename : String)
    (user_id user_details : Option String) :
    decodeMetaField (buildUploadMetadata prompt original_filename user_id user_details)
      "original_prompt_b64" = some prompt := by
  have hl : mlookup (buildUploadMetadata prompt original_filename user_id user_details)
      "original_prompt_b64" = some (b64OfString prompt) := by
    unfold buildUploadMetadata mlookup
    simp [List.find?]
  unfold decodeMetaField
  rw [hl]
  exact b64OfString_roundtrip prompt

/-! ## C9: subscription-validation handshake -/

/-- A `generate` batch element that neither returns early nor raises:
not a validation event, and if it is a blob-created event its processing
does not raise. -/
def genEventContinues (env : GenEnv) (e : Event) : Prop :=
  e.eventType ≠ some "Microsoft.EventGrid.SubscriptionValidationEvent" ∧
  (e.eventType = some "Microsoft.Storage.BlobCreated" → (processGenEvent env e).2 = false)

def exValidationEvent : Event :=
  ⟨some "Microsoft.EventGrid.SubscriptionValidationEvent", none, none, some "abc123"⟩

/-- CLAIM C9, counterexample.  A batch may contain a subscription-validation
event with code `abc123` and still not receive the validation response: a
blob-created event appearing before it that raises makes the `generate`
endpoint answer the generic 500 instead of
`{"validationResponse": "abc123"}`. -/
theorem c9_counterexample :
    genBatch exEnv [exBadEvent, exValidationEvent] =
      (⟨500, .text "An error occurred while processing the generation event."⟩, []) := rfl

/-- CLAIM C9, amended.  Both event-consuming endpoints (`transcribe` and
`generate`) answer exactly the JSON body `{"validationResponse": c}` for a
batch whose first subscription-validation event carries code `c`, provided
the events before it neither return early nor raise (in particular whenever
the validation event comes first, as in the actual Event-Grid handshake). -/
theorem c9_validation_response (cfg : TransCfg) (env : GenEnv) (v : Event)
    (rest : List Event) (c : String)
    (hty : v.eventType = some "Microsoft.EventGrid.SubscriptionValidationEvent")
    (hcode : v.validationCode = some c) :
    ∀ pre : List Event, (∀ e ∈ pre, transcribeEvent cfg e = none) →
      (∀ e ∈ pre, genEventContinues env e) →
      transcribeBatch cfg (pre ++ v :: rest) =
        ⟨200, .json (.obj [("validationResponse", .str c)])⟩ ∧
      (genBatch env (pre ++ v :: rest)).1 =
        ⟨200, .json (.obj [("validationResponse", .str c)])⟩ := by
  intro pre
  induction pre with
  | nil =>
    intro _ _
    constructor
    · have hv : transcribeEvent cfg v =
          some ⟨200, .json (.obj [("validationResponse", .str c)])⟩ := by
        unfold transcribeEvent
        rw [hty, if_pos rfl, hcode]
      simp only [List.nil_append]
      unfold transcribeBatch
      rw [hv]
    · simp only [List.nil_append]
      unfold genBatch
      rw [hty, if_pos rfl, hcode]
  | cons e pre ih =>
    intro h1 h2
    have he1 : transcribeEvent cfg e = none := h1 e (List.mem_cons_self e pre)
    have he2 : genEventContinues env e := h2 e (List.mem_cons_self e pre)
    have ih2 := ih (fun x hx => h1 x (List.mem_cons_of_mem _ hx))
      (fun x hx => h2 x (List.mem_cons_of_mem _ hx))
    constructor
    · simp only [List.cons_append]
      unfold transcribeBatch
      rw [he1]
      exact ih2.1
    · simp only [List.cons_append]
      unfold genBatch
      rw [if_neg he2.1]
      by_cases hbc : e.eventType = some "Microsoft.Storage.BlobCreated"
      · rw [if_pos hbc]
        rcases hpe : processGenEvent env e with ⟨effs, flag⟩
        have hflag : flag = false := by
          have := he2.2 hbc
          rw [hpe] at this
          exact this
        subst hflag
        simpa using ih2.2
      · rw [if_neg hbc]
        exact ih2.2

/-- Witness for the amended C9: the handshake batch `[validation]` on both
endpoints (with a fully configured transcribe environment). -/
theorem c9_validation_response_witness :
    exValidationEvent.eventType = some "Microsoft.EventGrid.SubscriptionValidationEvent" ∧
    transcribeBatch ⟨true, true, true, true, true⟩ [exValidationEvent] =
      ⟨200, .json (.obj [("validationResponse", .str "abc123")])⟩ ∧
    (genBatch exEnv [exValidationEvent]).1 =
      ⟨200, .json (.obj [("validationResponse", .str "abc123")])⟩ := by
  refine ⟨rfl, ?_⟩
  have h := c9_validation_response ⟨true, true, true, true, true⟩ exEnv exValidationEvent
    [] "abc123" rfl rfl [] (by simp) (by simp)
  simpa using h

/-! ## C1/C10: the ownership check, semantically -/

/-- The semantic content of `ownForbidden`: forbidden exactly when either the
name is under `users/` but not under `users/{u}/`, or the `user_id` metadata
is present, nonempty (truthy) and differs from `u`. -/
def ownDenied (u name : String) (meta : Meta) : Prop :=
  (strStartsWith name "users/" = true ∧ strStartsWith name ("users/" ++ u ++ "/") = false) ∨
  (∃ o, mlookup meta "user_id" = some o ∧ o ≠ "" ∧ o ≠ u)

theorem ownForbidden_iff (u name : String) (meta : Meta) :
    ownForbidden u name meta = true ↔ ownDenied u name meta := by
  unfold ownForbidden ownDenied
  cases hm : mlookup meta "user_id" with
  | none =>
    simp [truthyStr, Bool.or_eq_true, Bool.and_eq_true, Bool.not_eq_true',
      And.comm]
  | some o =>
    by_cases ho : o = ""
    · subst ho
      simp [truthyStr, Bool.or_eq_true, Bool.and_eq_true, Bool.not_eq_true', And.comm]
    · simp only [truthyStr, if_neg ho]
      simp [Bool.or_eq_true, Bool.and_eq_true, Bool.not_eq_true', And.comm, ho,
        bne_iff_ne]

theorem truthyStr_of_ne (s : String) (h : s ≠ "") : truthyStr (some s) = some s := by
  simp [truthyStr, h]

/-- Evaluation of `status` for a known caller, an exact name and an existing
blob: the result is the access-check branch. -/
theorem statusOp_eval (mstore : MStore) (u name : String) (blob : MinutesBlob)
    (hu : u ≠ "") (hname : name ≠ "") (hblob : mstore name = some blob) :
    statusOp mstore (some u) none (some name) =
      if ownForbidden u name blob.meta then
        ⟨403, .json (.obj [("status", .str "forbidden")])⟩
      else
        ⟨200, .json (.obj [("status", .str "completed"),
          ("job_id", pyOrJson none (some name)), ("minutes", .str blob.content)])⟩ := by
  unfold statusOp
  rw [truthyStr_of_ne name hname]
  simp only [truthyStr]
  rw [hblob]
  simp only [if_neg hu]

/-- Evaluation of `get-minutes` for a known caller and an existing blob. -/
theorem getMinutesOp_eval (mstore : MStore) (u name : String) (blob : MinutesBlob)
    (hu : u ≠ "") (hname : name ≠ "") (hblob : mstore name = some blob) :
    getMinutesOp mstore (some u) (some name) =
      if ownForbidden u name blob.meta then ⟨403, .text "Forbidden."⟩
      else ⟨200, .text blob.content⟩ := by
  unfold getMinutesOp
  rw [truthyStr_of_ne name hname]
  dsimp only
  rw [hblob]
  simp only [truthyStr, if_neg hu]

/-- Evaluation of `translate-minutes` for a known caller and an existing blob
(up to the access check). -/
theorem translateOp_eval (mstore : MStore) (tr : String → TrOutcome) (ts : String)
    (u name to_lang : String) (text? : Option String) (save : Bool) (pre? : Option String)
    (blob : MinutesBlob) (hu : u ≠ "") (hname : name ≠ "") (hto : to_lang ≠ "")
    (hblob : mstore name = some blob) :
    translateOp mstore tr ts (some u) (some name) text? (some to_lang) save pre? =
      if ownForbidden u name blob.meta then (⟨403, .text "Forbidden."⟩, mstore)
      else
        translateCore mstore tr ts (some u) (some name) blob.meta to_lang
          (match text? with
           | none => blob.content
           | some t => t) save pre? := by
  unfold translateOp
  rw [truthyStr_of_ne to_lang hto, truthyStr_of_ne name hname]
  cases htx : truthyStr text? with
  | none =>
    simp only
    rw [hblob]
    simp only [truthyStr, if_neg hu]
  | some t =>
    simp only
    rw [hblob]
    simp only [truthyStr, if_neg hu]

/-- No outcome of `translateCore` is the 403 response. -/
theorem translateCore_ne_forbidden (mstore : MStore) (tr : String → TrOutcome)
    (ts : String) (uid? mname? : Option String) (mmeta : Meta) (to_lang source_text : String)
    (save : Bool) (pre? : Option String) :
    (translateCore mstore tr ts uid? mname? mmeta to_lang source_text save pre?).1.status ≠ 403 := by
  unfold translateCore translateFinish
  cases htp : truthyStr pre? with
  | some p =>
    cases save <;> simp only
    · cases tr source_text <;> simp [translateFinish]
    · simp
  | none =>
    cases tr source_text <;> simp only <;> try simp
    cases save <;> simp [translateFinish]

/-- Evaluation of the shared regeneration tail when the transcript and audio
blobs resolve. -/
theorem regenWithTranscript_eval (mstore : MStore) (tstore : TStore) (astore : AStore)
    (ai : String → String) (ts : String) (uid? : Option String) (new_prompt tn : String)
    (doc : TranscriptDoc) (disp src : String) (ameta : Meta)
    (ht : tstore tn = some doc) (hdisp : doc.display = some disp)
    (hsrc : doc.source = some src)
    (ha : astore (pyBasename (urlPath src)) = some ameta) :
    regenWithTranscript mstore tstore astore ai ts uid? new_prompt tn =
      if (match mlookup ameta "user_id", truthyStr uid? with
          | some o, some u => o != u
          | _, _ => false) then (⟨403, .text "Forbidden."⟩, mstore)
      else
        (⟨200, .json (.obj [("name", .str (versionedMinutesName (truthyStr uid?)
            (String.mk (splitextL (pyBasename (urlPath src)).data).1) ts)),
          ("minutes", .str (ai (buildFinalPrompt new_prompt disp)))])⟩,
         updStore mstore (versionedMinutesName (truthyStr uid?)
            (String.mk (splitextL (pyBasename (urlPath src)).data).1) ts)
           ⟨ai (buildFinalPrompt new_prompt disp),
            ("transcript_blob_name", tn) :: propagate ameta
              ["user_id", "user_details_b64", "original_prompt_b64",
               "original_filename_b64"]⟩) := by
  unfold regenWithTranscript
  rw [ht]
  dsimp only
  rw [hdisp, hsrc]
  dsimp only
  rw [ha]

/-- Evaluation of `regenerate-minutes` in the by-name variant, down to the
transcript-backlink resolution. -/
theorem regenerateOp_eval (mstore : MStore) (tstore : TStore) (astore : AStore)
    (ai : String → String) (ts : String) (uid? : Option String) (p mn : String)
    (blob : MinutesBlob) (hp : p ≠ "") (hmn : mn ≠ "") (hblob : mstore mn = some blob) :
    regenerateOp mstore tstore astore ai ts uid? (some p) none (some mn) =
      if (match truthyStr uid? with
          | some u => ownForbidden u mn blob.meta
          | none => false) then (⟨403, .text "Forbidden."⟩, mstore)
      else
        match truthyStr (mlookup blob.meta "transcript_blob_name") with
        | none => (⟨400, .text "Cannot locate original transcript for regeneration."⟩, mstore)
        | some tn => regenWithTranscript mstore tstore astore ai ts uid? p tn := by
  unfold regenerateOp
  rw [truthyStr_of_ne p hp, truthyStr_of_ne mn hmn]
  dsimp only [truthyStr]
  rw [hblob]

/-- A nonempty string has a nonempty character list. -/
theorem data_ne_nil_of_ne (s : String) (h : s ≠ "") : s.data ≠ [] := by
  intro hd
  apply h
  cases s
  simp at hd
  simp [hd]

/-- For a slash-free caller id, a passing `users/{u}/` prefix check pins the
embedded path id (the second `/`-segment, as `extractor.py` reads it) to `u`. -/
theorem embedded_id_of_prefix (u name : String) (hu : u ≠ "") (hslash : '/' ∉ u.data)
    (hsw : strStartsWith name ("users/" ++ u ++ "/") = true) :
    extractUserIdFromPath name = some u := by
  obtain ⟨t, hteq⟩ := (startsWithL_iff name.data ("users/" ++ u ++ "/").data).mp hsw
  have hdecomp : name.data = "users".data ++ '/' :: (u.data ++ '/' :: t) := by
    rw [hteq]
    have : ("users/" ++ u ++ "/").data = "users/".data ++ u.data ++ ['/'] := by
      simp [String.data_append]
    rw [this]
    simp
  have hsw6 : strStartsWith name "users/" = true := by
    unfold strStartsWith
    rw [hdecomp]
    have : "users".data ++ '/' :: (u.data ++ '/' :: t) =
        "users/".data ++ (u.data ++ '/' :: t) := by simp
    rw [this]
    exact startsWithL_append _ _
  unfold extractUserIdFromPath
  rw [hsw6, if_pos rfl, hdecomp]
  rw [show ("users".data ++ '/' :: (u.data ++ '/' :: t)) =
    "users".data ++ '/' :: (u.data ++ '/' :: t) from rfl]
  rw [pySplit_append '/' "users".data (u.data ++ '/' :: t) (by decide)]
  rw [pySplit_append '/' u.data t hslash]
  simp only [List.get?]
  rw [if_pos (data_ne_nil_of_ne u hu)]

/-- CLAIM C1, counterexample.  The ownership check compares string prefixes,
not the embedded path id: the caller id may itself contain `/`.  For the
existing blob `users/alice/sub/x_minutes.txt` (no owner metadata), a caller
whose id is `alice/sub` passes `name.startswith(f"users/{uid}/")` and the
Status request succeeds with 200 — although the embedded path id is `alice`,
which differs from the caller id.  This refutes "the request succeeds only
when the caller's id exactly matches the embedded path id". -/
theorem c1_counterexample :
    statusOp (fun n => if n = "users/alice/sub/x_minutes.txt" then
        some ⟨"minutes text", []⟩ else none)
      (some "alice/sub") none (some "users/alice/sub/x_minutes.txt") =
      ⟨200, .json (.obj [("status", .str "completed"),
        ("job_id", .str "users/alice/sub/x_minutes.txt"),
        ("minutes", .str "minutes text")])⟩ ∧
    extractUserIdFromPath "users/alice/sub/x_minutes.txt" = some "alice" ∧
    ("alice/sub" : String) ≠ "alice" :=
  ⟨rfl, by decide, by decide⟩

/-- CLAIM C1, amended.  For a known (truthy) caller id `u` and an existing
target blob: Status, Get and Translate reject with 403 exactly when the name
starts with `users/` but not with `users/{u}/`, or the blob's `user_id`
metadata is truthy and differs from `u` (so absence of owner metadata admits
access, and for names with no `users/` prefix only an explicit metadata
mismatch rejects).  Regenerate-by-name applies the same check and
additionally rejects when the source audio blob's `user_id` metadata is
present and differs from `u`.  When the caller id is slash-free, passing the
prefix check entails that the embedded path id equals the caller id — the
claim's "exact embedded id match" reading holds for slash-free ids only. -/
theorem c1_ownership_amended (mstore : MStore) (tstore : TStore) (astore : AStore)
    (ai : String → String) (tr : String → TrOutcome) (ts : String)
    (u name to_lang p : String) (text? pre? : Option String) (save : Bool)
    (blob : MinutesBlob)
    (hu : u ≠ "") (hname : name ≠ "") (hto : to_lang ≠ "") (hp : p ≠ "")
    (hblob : mstore name = some blob) :
    ((statusOp mstore (some u) none (some name)).status = 403 ↔
      ownDenied u name blob.meta) ∧
    ((getMinutesOp mstore (some u) (some name)).status = 403 ↔
      ownDenied u name blob.meta) ∧
    (((translateOp mstore tr ts (some u) (some name) text? (some to_lang) save pre?).1).status
        = 403 ↔ ownDenied u name blob.meta) ∧
    (∀ tn doc disp src ameta,
      truthyStr (mlookup blob.meta "transcript_blob_name") = some tn →
      tstore tn = some doc → doc.display = some disp → doc.source = some src →
      astore (pyBasename (urlPath src)) = some ameta →
      (((regenerateOp mstore tstore astore ai ts (some u) (some p) none (some name)).1).status
          = 403 ↔
        (ownDenied u name blob.meta ∨ ∃ o, mlookup ameta "user_id" = some o ∧ o ≠ u))) ∧
    ('/' ∉ u.data → strStartsWith name ("users/" ++ u ++ "/") = true →
      extractUserIdFromPath name = some u) := by
  refine ⟨?_, ?_, ?_, ?_, fun hs hw => embedded_id_of_prefix u name hu hs hw⟩
  · rw [statusOp_eval mstore u name blob hu hname hblob]
    by_cases hf : ownForbidden u name blob.meta = true
    · rw [if_pos hf]
      exact iff_of_true rfl ((ownForbidden_iff u name blob.meta).mp hf)
    · rw [if_neg hf]
      exact iff_of_false (by simp)
        (fun hd => hf ((ownForbidden_iff u name blob.meta).mpr hd))
  · rw [getMinutesOp_eval mstore u name blob hu hname hblob]
    by_cases hf : ownForbidden u name blob.meta = true
    · rw [if_pos hf]
      exact iff_of_true rfl ((ownForbidden_iff u name blob.meta).mp hf)
    · rw [if_neg hf]
      exact iff_of_false (by simp)
        (fun hd => hf ((ownForbidden_iff u name blob.meta).mpr hd))
  · rw [translateOp_eval mstore tr ts u name to_lang text? save pre? blob hu hname hto hblob]
    by_cases hf : ownForbidden u name blob.meta = true
    · rw [if_pos hf]
      exact iff_of_true rfl ((ownForbidden_iff u name blob.meta).mp hf)
    · rw [if_neg hf]
      exact iff_of_false
        (translateCore_ne_forbidden mstore tr ts (some u) (some name) blob.meta to_lang _
          save pre?)
        (fun hd => hf ((ownForbidden_iff u name blob.meta).mpr hd))
  · intro tn doc disp src ameta htn ht hdisp hsrc ha
    rw [regenerateOp_eval mstore tstore astore ai ts (some u) p name blob hp hname hblob]
    rw [truthyStr_of_ne u hu]
    by_cases hf : ownForbidden u name blob.meta = true
    · rw [if_pos hf]
      exact iff_of_true rfl (Or.inl ((ownForbidden_iff u name blob.meta).mp hf))
    · rw [if_neg hf, htn]
      dsimp only
      rw [regenWithTranscript_eval mstore tstore astore ai ts (some u) p tn doc disp src
        ameta ht hdisp hsrc ha]
      rw [truthyStr_of_ne u hu]
      cases hm : mlookup ameta "user_id" with
      | none =>
        rw [if_neg (by simp)]
        refine iff_of_false (by simp) ?_
        rintro (hd | ⟨o, ho, _⟩)
        · exact hf ((ownForbidden_iff u name blob.meta).mpr hd)
        · exact Option.noConfusion ho
      | some o =>
        by_cases hou : o = u
        · rw [if_neg (by simp [bne_iff_ne, hou])]
          refine iff_of_false (by simp) ?_
          rintro (hd | ⟨o2, ho2, hne2⟩)
          · exact hf ((ownForbidden_iff u name blob.meta).mpr hd)
          · injection ho2 with ho2e
            exact hne2 (ho2e ▸ hou)
        · rw [if_pos (by simp [bne_iff_ne, hou])]
          exact iff_of_true rfl (Or.inr ⟨o, rfl, hou⟩)

/-- Witness for the amended C1: blob `users/alice/m1_minutes.txt` owned by
`alice`; caller `bob` is denied (403 from Status), `alice` succeeds. -/
theorem c1_ownership_amended_witness :
    statusOp (fun n => if n = "users/alice/m1_minutes.txt" then
        some ⟨"T", [("user_id", "alice")]⟩ else none)
      (some "bob") none (some "users/alice/m1_minutes.txt") =
      ⟨403, .json (.obj [("status", .str "forbidden")])⟩ ∧
    statusOp (fun n => if n = "users/alice/m1_minutes.txt" then
        some ⟨"T", [("user_id", "alice")]⟩ else none)
      (some "alice") none (some "users/alice/m1_minutes.txt") =
      ⟨200, .json (.obj [("status", .str "completed"),
        ("job_id", .str "users/alice/m1_minutes.txt"), ("minutes", .str "T")])⟩ ∧
    ((statusOp (fun n => if n = "users/alice/m1_minutes.txt" then
        some ⟨"T", [("user_id", "alice")]⟩ else none)
      (some "bob") none (some "users/alice/m1_minutes.txt")).status = 403 ↔
      ownDenied "bob" "users/alice/m1_minutes.txt" [("user_id", "alice")]) := by
  refine ⟨rfl, rfl, ?_⟩
  exact (c1_ownership_amended
    (fun n => if n = "users/alice/m1_minutes.txt" then
        some ⟨"T", [("user_id", "alice")]⟩ else none)
    (fun _ => none) (fun _ => none) (fun s => s) (fun _ => .fail) "20250101000000"
    "bob" "users/alice/m1_minutes.txt" "en" "prompt" none none false
    ⟨"T", [("user_id", "alice")]⟩
    (by decide) (by decide) (by decide) (by decide) rfl).1

/-! ## C6: regeneration is versioned -/

/-- A name ending in a 14-digit block followed by `.txt` never equals a name
ending in the fixed `_minutes.txt` suffix: the 8 characters before `.txt`
would have to be `_minutes`, but they are digits. -/
theorem tsuffix_ne (xs ys tsd : List Char) (hd : ∀ ch ∈ tsd, ch.isDigit = true)
    (hl : tsd.length = 14) : xs ++ (tsd ++ ".txt".data) ≠ ys ++ "_minutes.txt".data := by
  intro h
  have hx4 : (".txt".data).length = 4 := by decide
  have hy12 : ("_minutes.txt".data).length = 12 := by decide
  have hlen : xs.length + 18 = ys.length + 12 := by
    have hc := congrArg List.length h
    simp only [List.length_append, hl, hx4, hy12] at hc
    omega
  have hys : ys.length = xs.length + 6 := by omega
  have hdropL : (xs ++ (tsd ++ ".txt".data)).drop (xs.length + 6) =
      tsd.drop 6 ++ ".txt".data := by
    rw [List.drop_append 6]
    rw [List.drop_append_of_le_length (by omega)]
  have hdropR : (ys ++ "_minutes.txt".data).drop (xs.length + 6) = "_minutes.txt".data := by
    rw [← hys, List.drop_left]
  have h2 : tsd.drop 6 ++ ".txt".data = "_minutes.txt".data := by
    rw [← hdropL, h, hdropR]
  have h3 : ("_minutes.txt".data : List Char) = "_minutes".data ++ ".txt".data := by decide
  rw [h3] at h2
  have h4 := List.append_cancel_right h2
  have hmem : '_' ∈ tsd.drop 6 := by
    rw [h4]
    decide
  exact absurd (hd '_' (List.mem_of_mem_drop hmem)) (by decide)

/-- A timestamp-versioned minutes name (14-digit timestamp) is distinct from
every canonical `..._minutes.txt` name. -/
theorem versionedMinutesName_ne_canonical (uid? : Option String) (ab ts P : String)
    (hd : ∀ ch ∈ ts.data, ch.isDigit = true) (hl : ts.data.length = 14) :
    versionedMinutesName uid? ab ts ≠ P ++ "_minutes.txt" := by
  intro h
  have hdata := congrArg String.data h
  cases uid? with
  | none =>
    exact tsuffix_ne ((ab ++ "_minutes_").data) P.data ts.data hd hl
      (by simpa [versionedMinutesName, String.data_append, List.append_assoc] using hdata)
  | some u =>
    exact tsuffix_ne (("users/" ++ u ++ "/" ++ ab ++ "_minutes_").data) P.data ts.data hd hl
      (by simpa [versionedMinutesName, String.data_append, List.append_assoc] using hdata)

def c6Blob : MinutesBlob := ⟨"OLD", [("transcript_blob_name", "contenturl_0.json")]⟩

def c6Store : MStore :=
  fun n => if n = "mtg_tok_minutes_20250101120000.txt" then some c6Blob else none

/-- CLAIM C6, counterexample.  The versioned output name is
`{audio_base}_minutes_{ts}.txt` for the *current* timestamp: regenerating an
already-versioned minutes blob during the same wall-clock second that
produced it (here `20250101120000`) derives the *same* name and, because the
write uses `overwrite=True`, replaces the original blob's content (`OLD`
becomes the newly generated text).  So "prior artifacts are never
overwritten" does not hold unconditionally. -/
theorem c6_counterexample :
    c6Store "mtg_tok_minutes_20250101120000.txt" = some ⟨"OLD",
      [("transcript_blob_name", "contenturl_0.json")]⟩ ∧
    (regenerateOp c6Store exEnv.tstore exEnv.astore (fun _ => "NEW") "20250101120000"
        none (some "newprompt") none (some "mtg_tok_minutes_20250101120000.txt")).2
      "mtg_tok_minutes_20250101120000.txt" =
      some ⟨"NEW",
        [("transcript_blob_name", "contenturl_0.json"),
         ("user_id", "alice"),
         ("original_prompt_b64", b64OfString "p"),
         ("original_filename_b64", b64OfString "f.mp4")]⟩ :=
  ⟨rfl, rfl⟩

/-- CLAIM C6, amended.  For a Regenerate request on an existing *canonical*
minutes name (`{...}_minutes.txt`, the shape Minutes Generation produces)
whose access checks pass and whose transcript backlink resolves, and a
14-digit timestamp: the output is written under the fresh
`_minutes_{ts}.txt`-versioned name, which differs from the original name;
the original blob's content and metadata are untouched, and no blob other
than the new versioned name changes.  (Distinctness can fail only for
targets that are themselves versioned artifacts carrying the identical
current timestamp — see the counterexample.) -/
theorem c6_regenerate_fresh (mstore : MStore) (tstore : TStore) (astore : AStore)
    (ai : String → String) (ts : String) (uid? : Option String) (p mn : String)
    (blob : MinutesBlob) (tn : String) (doc : TranscriptDoc) (disp src : String)
    (ameta : Meta) (P : String)
    (hp : p ≠ "") (hmn : mn ≠ "") (hblob : mstore mn = some blob)
    (hfb : (match truthyStr uid? with
            | some u => ownForbidden u mn blob.meta
            | none => false) = false)
    (htn : truthyStr (mlookup blob.meta "transcript_blob_name") = some tn)
    (ht : tstore tn = some doc) (hdisp : doc.display = some disp)
    (hsrc : doc.source = some src)
    (ha : astore (pyBasename (urlPath src)) = some ameta)
    (hac : (match mlookup ameta "user_id", truthyStr uid? with
            | some o, some u => o != u
            | _, _ => false) = false)
    (hshape : mn = P ++ "_minutes.txt")
    (hts : ∀ ch ∈ ts.data, ch.isDigit = true) (htsl : ts.data.length = 14) :
    versionedMinutesName (truthyStr uid?)
      (String.mk (splitextL (pyBasename (urlPath src)).data).1) ts ≠ mn ∧
    (regenerateOp mstore tstore astore ai ts uid? (some p) none (some mn)).2
      (versionedMinutesName (truthyStr uid?)
        (String.mk (splitextL (pyBasename (urlPath src)).data).1) ts) =
      some ⟨ai (buildFinalPrompt p disp),
        ("transcript_blob_name", tn) :: propagate ameta
          ["user_id", "user_details_b64", "original_prompt_b64", "original_filename_b64"]⟩ ∧
    (regenerateOp mstore tstore astore ai ts uid? (some p) none (some mn)).2 mn = mstore mn ∧
    (∀ n, n ≠ versionedMinutesName (truthyStr uid?)
        (String.mk (splitextL (pyBasename (urlPath src)).data).1) ts →
      (regenerateOp mstore tstore astore ai ts uid? (some p) none (some mn)).2 n = mstore n) := by
  have hne : versionedMinutesName (truthyStr uid?)
      (String.mk (splitextL (pyBasename (urlPath src)).data).1) ts ≠ mn := by
    rw [hshape]
    exact versionedMinutesName_ne_canonical (truthyStr uid?) _ ts P hts htsl
  have hres : regenerateOp mstore tstore astore ai ts uid? (some p) none (some mn) =
      (⟨200, .json (.obj [("name", .str (versionedMinutesName (truthyStr uid?)
          (String.mk (splitextL (pyBasename (urlPath src)).data).1) ts)),
        ("minutes", .str (ai (buildFinalPrompt p disp)))])⟩,
       updStore mstore (versionedMinutesName (truthyStr uid?)
          (String.mk (splitextL (pyBasename (urlPath src)).data).1) ts)
         ⟨ai (buildFinalPrompt p disp),
          ("transcript_blob_name", tn) :: propagate ameta
            ["user_id", "user_details_b64", "original_prompt_b64",
             "original_filename_b64"]⟩) := by
    rw [regenerateOp_eval mstore tstore astore ai ts uid? p mn blob hp hmn hblob]
    rw [if_neg (by simp [hfb]), htn]
    dsimp only
    rw [regenWithTranscript_eval mstore tstore astore ai ts uid? p tn doc disp src ameta
      ht hdisp hsrc ha]
    rw [if_neg (by simp [hac])]
  refine ⟨hne, ?_, ?_, ?_⟩
  · rw [hres]
    unfold updStore
    simp
  · rw [hres]
    show (if mn = _ then _ else mstore mn) = mstore mn
    rw [if_neg (fun hx => hne hx.symm)]
  · intro n hn
    rw [hres]
    show (if n = _ then _ else mstore n) = mstore n
    rw [if_neg hn]

/-- Witness for the amended C6: regenerating the canonical
`users/alice/mtg_tok_minutes.txt` at a concrete timestamp. -/
theorem c6_regenerate_fresh_witness :
    versionedMinutesName (truthyStr (some "alice"))
      (String.mk (splitextL (pyBasename
        (urlPath "https://acct.blob.core.windows.net/audio/mtg_tok.wav")).data).1)
      "20250101000000" ≠ "users/alice/mtg_tok_minutes.txt" ∧
    (regenerateOp
        (fun n => if n = "users/alice/mtg_tok_minutes.txt" then
          some ⟨"OLD", [("user_id", "alice"),
            ("transcript_blob_name", "contenturl_0.json")]⟩ else none)
        exEnv.tstore exEnv.astore (fun _ => "NEW") "20250101000000"
        (some "alice") (some "newprompt") none (some "users/alice/mtg_tok_minutes.txt")).2
      "users/alice/mtg_tok_minutes.txt" =
      some ⟨"OLD", [("user_id", "alice"), ("transcript_blob_name", "contenturl_0.json")]⟩ := by
  have h := c6_regenerate_fresh
    (fun n => if n = "users/alice/mtg_tok_minutes.txt" then
      some ⟨"OLD", [("user_id", "alice"),
        ("transcript_blob_name", "contenturl_0.json")]⟩ else none)
    exEnv.tstore exEnv.astore (fun _ => "NEW") "20250101000000" (some "alice")
    "newprompt" "users/alice/mtg_tok_minutes.txt"
    ⟨"OLD", [("user_id", "alice"), ("transcript_blob_name", "contenturl_0.json")]⟩
    "contenturl_0.json" exTranscript "Hello transcript"
    "https://acct.blob.core.windows.net/audio/mtg_tok.wav" exAudioMeta
    "users/alice/mtg_tok"
    (by decide) (by decide) rfl (by decide) rfl rfl rfl rfl rfl (by decide) (by decide)
    (by decide) (by decide)
  exact ⟨h.1, h.2.2.1.trans rfl⟩

/-! ## C10: no identity means no ownership check -/

/-- With an anonymous caller the regeneration tail never answers 403: the
audio owner check is guarded by `if current_user_id`. -/
theorem regenWithTranscript_anon_ne_403 (ms : MStore) (tst : TStore) (ast : AStore)
    (ai : String → String) (t p tn : String) :
    ((regenWithTranscript ms tst ast ai t none p tn).1).status ≠ 403 := by
  unfold regenWithTranscript
  split
  · simp
  · split
    · next disp src hdisp hsrc =>
      dsimp only
      split
      · simp
      · next ameta ha =>
        cases hm : mlookup ameta "user_id" <;> dsimp only [truthyStr] <;> simp
    · simp

/-- With an anonymous caller `translateCore` is reached with no check at all;
none of its outcomes is 403. -/
theorem c10_no_identity_no_check :
    (∀ (ms : MStore) (j? n? : Option String), (statusOp ms none j? n?).status ≠ 403) ∧
    (∀ (ms : MStore) (n? : Option String), (getMinutesOp ms none n?).status ≠ 403) ∧
    (∀ (ms : MStore) (tst : TStore) (ast : AStore) (ai : String → String) (t : String)
        (p? tn? mn? : Option String),
      ((regenerateOp ms tst ast ai t none p? tn? mn?).1).status ≠ 403) ∧
    (∀ (ms : MStore) (tr : String → TrOutcome) (t : String) (n? tx? to? : Option String)
        (sv : Bool) (pre? : Option String),
      ((translateOp ms tr t none n? tx? to? sv pre?).1).status ≠ 403) ∧
    (∀ (ms : MStore) (name : String) (blob : MinutesBlob), name ≠ "" → ms name = some blob →
      statusOp ms none none (some name) =
        ⟨200, .json (.obj [("status", .str "completed"),
          ("job_id", pyOrJson none (some name)), ("minutes", .str blob.content)])⟩ ∧
      getMinutesOp ms none (some name) = ⟨200, .text blob.content⟩) := by
  refine ⟨?_, ?_, ?_, ?_, ?_⟩
  · intro ms j? n?
    unfold statusOp
    dsimp only [truthyStr]
    repeat' split
    all_goals simp
  · intro ms n?
    unfold getMinutesOp
    dsimp only [truthyStr]
    repeat' split
    all_goals simp
  · intro ms tst ast ai t p? tn? mn?
    unfold regenerateOp
    dsimp only [truthyStr]
    repeat' split
    all_goals first
      | apply regenWithTranscript_anon_ne_403
      | simp_all
  · intro ms tr t n? tx? to? sv pre?
    unfold translateOp
    dsimp only [truthyStr]
    repeat' split
    all_goals first
      | apply translateCore_ne_forbidden
      | simp_all
  · intro ms name blob hname hblob
    constructor
    · unfold statusOp
      rw [truthyStr_of_ne name hname]
      dsimp only [truthyStr]
      rw [hblob]
    · unfold getMinutesOp
      rw [truthyStr_of_ne name hname]
      dsimp only [truthyStr]
      rw [hblob]

/-- Witness for C10 at a blob under another user's prefix, with no caller
identity: both reads succeed and nothing is 403. -/
theorem c10_no_identity_no_check_witness :
    ("users/alice/m1_minutes.txt" : String) ≠ "" ∧
    statusOp (fun n => if n = "users/alice/m1_minutes.txt" then
        some ⟨"T", [("user_id", "alice")]⟩ else none) none none
      (some "users/alice/m1_minutes.txt") =
      ⟨200, .json (.obj [("status", .str "completed"),
        ("job_id", .str "users/alice/m1_minutes.txt"), ("minutes", .str "T")])⟩ := by
  refine ⟨by decide, ?_⟩
  have h := (c10_no_identity_no_check.2.2.2.2
    (fun n => if n = "users/alice/m1_minutes.txt" then
      some ⟨"T", [("user_id", "alice")]⟩ else none)
    "users/alice/m1_minutes.txt" ⟨"T", [("user_id", "alice")]⟩ (by decide) rfl).1
  exact h.trans rfl

end MM

